import Mathlib

/-!
Verification development for the ReefRadar audio pipeline.

Shallow embedding of:
* the pure-Python WAV codec (`read_wav` / `write_wav` in
  `src/lambdas/preprocessor/handler.py`),
* the linear-interpolation resampler (`resample_linear`, same file),
* the segmentation step of the preprocessor handler and of the inference
  container (`preprocess_audio` in
  `src/infrastructure/lambda_container/inference.py`),
* the classifier core (`classify_embedding`, `cosine_similarity`,
  `generate_synthetic_embedding` and the embedding aggregation in
  `src/lambdas/classifier/handler.py`).

Byte streams are `List ℕ` (each entry a byte value), machine integers are
`ℕ`/`ℤ` with explicit bounds where Python's `struct.pack` enforces them,
audio samples are exact rationals (`ℚ`) for the preprocessing pipeline and
reals (`ℝ`) for the classifier, which divides by a square-root norm.
-/

namespace ReefRadar

/-! ### Little-endian byte packing (models `struct.pack`/`struct.unpack`) -/

/-- Bytes of `struct.pack('<H', v)` for an in-range value. -/
def packU16 (v : ℕ) : List ℕ := [v % 256, v / 256 % 256]

/-- Bytes of `struct.pack('<I', v)` for an in-range value. -/
def packU32 (v : ℕ) : List ℕ :=
  [v % 256, v / 256 % 256, v / 256 ^ 2 % 256, v / 256 ^ 3 % 256]

/-- `struct.unpack('<H', bytes)`. -/
def unpackU16 (b0 b1 : ℕ) : ℕ := b0 + 256 * b1

/-- `struct.unpack('<I', bytes)`. -/
def unpackU32 (b0 b1 b2 b3 : ℕ) : ℕ :=
  b0 + 256 * b1 + 256 ^ 2 * b2 + 256 ^ 3 * b3

@[simp] theorem packU16_length (v : ℕ) : (packU16 v).length = 2 := rfl

@[simp] theorem packU32_length (v : ℕ) : (packU32 v).length = 4 := rfl

theorem unpackU32_packU32 (v : ℕ) (h : v < 2 ^ 32) :
    unpackU32 (v % 256) (v / 256 % 256) (v / 256 ^ 2 % 256) (v / 256 ^ 3 % 256) = v := by
  unfold unpackU32
  omega

/-! ### int16 sample bytes (models `numpy.int16` little-endian layout) -/

/-- The two little-endian bytes of one `np.int16` sample (`samples.tobytes()`). -/
def int16Bytes (s : ℤ) : List ℕ :=
  [(s % 65536).toNat % 256, (s % 65536).toNat / 256]

/-- One sample of `np.frombuffer(data, dtype=np.int16)`: little-endian
two's-complement 16-bit read. -/
def readI16 (b0 b1 : ℕ) : ℤ :=
  let v := unpackU16 b0 b1
  if v < 32768 then (v : ℤ) else (v : ℤ) - 65536

/-- One sample of `np.frombuffer(data, dtype=np.int32)`. -/
def readI32 (b0 b1 b2 b3 : ℕ) : ℤ :=
  let v := unpackU32 b0 b1 b2 b3
  if v < 2 ^ 31 then (v : ℤ) else (v : ℤ) - 2 ^ 32

/-- `np.frombuffer(data, dtype=np.int16)`: consecutive byte pairs. -/
def decodeInt16 : List ℕ → List ℤ
  | b0 :: b1 :: rest => readI16 b0 b1 :: decodeInt16 rest
  | _ => []

/-- `np.frombuffer(data, dtype=np.int32)`: consecutive byte quadruples. -/
def decodeInt32 : List ℕ → List ℤ
  | b0 :: b1 :: b2 :: b3 :: rest => readI32 b0 b1 b2 b3 :: decodeInt32 rest
  | _ => []

/-- `np.frombuffer(data, dtype=np.uint8).astype(np.int16) - 128` (8-bit branch). -/
def decodeU8 (data : List ℕ) : List ℤ := data.map (fun b => (b : ℤ) - 128)

theorem readI16_int16Bytes (s : ℤ) (hlo : -32768 ≤ s) (hhi : s < 32768) :
    readI16 ((s % 65536).toNat % 256) ((s % 65536).toNat / 256) = s := by
  have hv : ((s % 65536).toNat % 256) + 256 * ((s % 65536).toNat / 256) = (s % 65536).toNat := by
    omega
  simp only [readI16, unpackU16, hv]
  split <;> omega

theorem decodeInt16_flatMap (samples : List ℤ)
    (h : ∀ s ∈ samples, -32768 ≤ s ∧ s < 32768) :
    decodeInt16 (samples.flatMap int16Bytes) = samples := by
  induction samples with
  | nil => rfl
  | cons s rest ih =>
    have hs := h s (List.mem_cons_self s rest)
    simp only [List.flatMap_cons, int16Bytes, List.cons_append, List.nil_append]
    rw [decodeInt16]
    rw [readI16_int16Bytes s hs.1 hs.2, ih (fun x hx => h x (List.mem_cons_of_mem s hx))]

@[simp] theorem int16Bytes_length (s : ℤ) : (int16Bytes s).length = 2 := rfl

/-! ### WAV encoder (`write_wav` in `src/lambdas/preprocessor/handler.py`)

`write_wav` emits, in order: `b'RIFF'`, `pack('<I', 36 + data_size)`,
`b'WAVE'`, `b'fmt '`, `pack('<I', 16)`, `pack('<H', 1)` (PCM),
`pack('<H', num_channels)`, `pack('<I', sample_rate)`,
`pack('<I', byte_rate)`, `pack('<H', block_align)`,
`pack('<H', bits_per_sample)`, `b'data'`, `pack('<I', data_size)`, then the
raw int16 samples.  `struct.pack('<I', v)` raises for `v ≥ 2^32`, so the
encoder is `Option`-valued: `none` models the raised `struct.error`. -/

def riffTag : List ℕ := [82, 73, 70, 70]   -- b'RIFF'
def waveTag : List ℕ := [87, 65, 86, 69]   -- b'WAVE'
def fmtTag : List ℕ := [102, 109, 116, 32] -- b'fmt '
def dataTag : List ℕ := [100, 97, 116, 97] -- b'data'

def write_wav (sample_rate : ℕ) (samples : List ℤ) : Option (List ℕ) :=
  let num_samples := samples.length
  let num_channels := 1
  let bits_per_sample := 16
  let byte_rate := sample_rate * num_channels * bits_per_sample / 8
  let block_align := num_channels * bits_per_sample / 8
  let data_size := num_samples * block_align
  if 36 + data_size < 2 ^ 32 ∧ sample_rate < 2 ^ 32 ∧ byte_rate < 2 ^ 32 then
    some (riffTag ++ packU32 (36 + data_size) ++ waveTag ++
      fmtTag ++ packU32 16 ++ packU16 1 ++ packU16 num_channels ++
      packU32 sample_rate ++ packU32 byte_rate ++ packU16 block_align ++
      packU16 bits_per_sample ++
      dataTag ++ packU32 data_size ++ samples.flatMap int16Bytes)
  else none

/-! ### WAV decoder (`read_wav` in `src/lambdas/preprocessor/handler.py`)

`read_wav` checks the `RIFF`/`WAVE` markers, then walks chunks in a
`while True` loop: it reads a 4-byte chunk id (breaking if fewer than 4
bytes remain), unpacks a 4-byte little-endian size (`struct.error` if the
read is short), parses a `fmt ` chunk's fields (consuming 16 bytes plus any
declared extra), breaks at the first `data` chunk, and skips unknown chunks
by their declared size.  After the loop it raises `InvalidAudioFormatError`
when no `fmt ` chunk was seen, dispatches on the bit depth, and converts
the `data` bytes with `np.frombuffer` — referencing the local variable
`data`, which was never assigned when the loop ended without a `data`
chunk (an `UnboundLocalError`).  Error constructors below mirror the
Python exception that would be raised. -/

/-- The Python exceptions `read_wav` can raise, by kind. -/
inductive WavError where
  /-- `InvalidAudioFormatError` -/
  | invalidFormat
  /-- `struct.error` from a short read fed to `struct.unpack` -/
  | structError
  /-- `UnboundLocalError` (a `NameError`): local `data` referenced before assignment -/
  | nameError
  /-- `ValueError` from numpy (`frombuffer` size / `reshape`) -/
  | valueError
  deriving DecidableEq, Repr

/-- The local variables assigned while parsing a `fmt ` chunk. -/
structure FmtInfo where
  audioFormat : ℕ
  numChannels : ℕ
  sampleRate : ℕ
  bitsPerSample : ℕ
  deriving DecidableEq, Repr

/-- The decoded result: sample rate and samples are what `read_wav`
returns; the channel count and bit depth are the values it parsed from the
`fmt ` chunk (locals in the source). -/
structure WavData where
  sampleRate : ℕ
  numChannels : ℕ
  bitsPerSample : ℕ
  samples : List ℤ
  deriving DecidableEq, Repr

/-- Field reads of the `fmt ` chunk: format code at byte 0, channels at 2,
sample rate at 4, bits per sample at 14 (byte rate and block align are read
and discarded). -/
def parseFmt (b : List ℕ) : FmtInfo :=
  { audioFormat := unpackU16 (b.getD 0 0) (b.getD 1 0)
    numChannels := unpackU16 (b.getD 2 0) (b.getD 3 0)
    sampleRate := unpackU32 (b.getD 4 0) (b.getD 5 0) (b.getD 6 0) (b.getD 7 0)
    bitsPerSample := unpackU16 (b.getD 14 0) (b.getD 15 0) }

/-- The chunk-walking `while True` loop of `read_wav`, with explicit fuel so
that the definition is structurally recursive (the fuel used by `read_wav`
always exceeds the number of loop iterations, see `wavChunkLoopF_irrel`).
Returns the parsed `fmt ` fields (if any) and the `data` payload (if a
`data` chunk was reached). -/
def wavChunkLoopF :
    ℕ → List ℕ → Option FmtInfo → Except WavError (Option FmtInfo × Option (List ℕ))
  | 0, _, fmt? => .ok (fmt?, none)
  | fuel + 1, rem, fmt? =>
    if rem.length < 4 then .ok (fmt?, none)   -- `if len(chunk_id) < 4: break`
    else
      let chunkId := rem.take 4
      let rest := rem.drop 4
      if rest.length < 4 then .error .structError  -- short `struct.unpack('<I', ...)`
      else
        let chunkSize := unpackU32 (rest.getD 0 0) (rest.getD 1 0) (rest.getD 2 0) (rest.getD 3 0)
        let body := rest.drop 4
        if chunkId = fmtTag then
          -- the fmt parse performs fixed-offset unpacks over the next 16 bytes
          if body.length < 16 then .error .structError
          else wavChunkLoopF fuel (body.drop (max chunkSize 16)) (some (parseFmt body))
        else if chunkId = dataTag then
          .ok (fmt?, some (body.take chunkSize))   -- `data = f.read(chunk_size); break`
        else
          wavChunkLoopF fuel (body.drop chunkSize) fmt?   -- skip unknown chunk

/-- The chunk loop at its canonical fuel. -/
def wavChunkLoop (rem : List ℕ) (fmt? : Option FmtInfo) :
    Except WavError (Option FmtInfo × Option (List ℕ)) :=
  wavChunkLoopF (rem.length + 1) rem fmt?

/-- The code after the loop: missing-fmt check, bit-depth dispatch,
`np.frombuffer` conversion, stereo `reshape` check. -/
def wavFinish (fmt? : Option FmtInfo) (data? : Option (List ℕ)) : Except WavError WavData :=
  match fmt? with
  | none => .error .invalidFormat          -- "missing format chunk"
  | some f =>
    let finish : List ℤ → Except WavError WavData := fun samples =>
      if 1 < f.numChannels ∧ samples.length % f.numChannels ≠ 0 then
        .error .valueError                 -- `reshape(-1, num_channels)` fails
      else .ok ⟨f.sampleRate, f.numChannels, f.bitsPerSample, samples⟩
    if f.bitsPerSample = 16 then
      match data? with
      | none => .error .nameError          -- `data` never assigned
      | some d => if d.length % 2 = 0 then finish (decodeInt16 d) else .error .valueError
    else if f.bitsPerSample = 32 then
      match data? with
      | none => .error .nameError
      | some d => if d.length % 4 = 0 then finish (decodeInt32 d) else .error .valueError
    else if f.bitsPerSample = 8 then
      match data? with
      | none => .error .nameError
      | some d => finish (decodeU8 d)
    else .error .invalidFormat             -- "Unsupported bit depth"

/-- `read_wav` on a byte stream. -/
def read_wav (bytes : List ℕ) : Except WavError WavData :=
  if bytes.take 4 ≠ riffTag then .error .invalidFormat
  else if (bytes.drop 8).take 4 ≠ waveTag then .error .invalidFormat
  else
    match wavChunkLoop (bytes.drop 12) none with
    | .error e => .error e
    | .ok (fmt?, data?) => wavFinish fmt? data?

/-- The preprocessor handler's `except` chain maps `read_wav` failures to
stored error codes: `InvalidAudioFormatError` is recorded as
`INVALID_AUDIO_FORMAT`; every other exception falls to the generic
`except Exception` branch recorded as `PROCESSING_FAILED`. -/
def preprocessorErrorCode : WavError → String
  | .invalidFormat => "INVALID_AUDIO_FORMAT"
  | _ => "PROCESSING_FAILED"

/-! #### Loop lemmas -/

theorem wavChunkLoopF_irrel (fuel : ℕ) :
    ∀ (fuel' : ℕ) (rem : List ℕ) (fmt? : Option FmtInfo),
      rem.length < fuel → rem.length < fuel' →
      wavChunkLoopF fuel rem fmt? = wavChunkLoopF fuel' rem fmt? := by
  induction fuel with
  | zero => intro fuel' rem fmt? h _; omega
  | succ fuel ih =>
    intro fuel' rem fmt? h h'
    cases fuel' with
    | zero => omega
    | succ fuel' =>
      simp only [wavChunkLoopF]
      split_ifs with h4 h4' hf h16 hd
      all_goals first
        | rfl
        | (apply ih <;> (simp only [List.length_drop] at *; omega))

theorem wavChunkLoop_nil (fmt? : Option FmtInfo) : wavChunkLoop [] fmt? = .ok (fmt?, none) := rfl

/-- Helper: values of `unpackU32` applied to the four `getD` reads of a
stream beginning with `packU32 n`. -/
theorem unpackU32_getD_packU32 (n : ℕ) (tail : List ℕ) (h : n < 2 ^ 32) :
    unpackU32 ((packU32 n ++ tail).getD 0 0) ((packU32 n ++ tail).getD 1 0)
      ((packU32 n ++ tail).getD 2 0) ((packU32 n ++ tail).getD 3 0) = n := by
  have h0 : (packU32 n ++ tail).getD 0 0 = n % 256 := List.getD_append _ _ _ _ (by simp)
  have h1 : (packU32 n ++ tail).getD 1 0 = n / 256 % 256 := List.getD_append _ _ _ _ (by simp)
  have h2 : (packU32 n ++ tail).getD 2 0 = n / 256 ^ 2 % 256 := List.getD_append _ _ _ _ (by simp)
  have h3 : (packU32 n ++ tail).getD 3 0 = n / 256 ^ 3 % 256 := List.getD_append _ _ _ _ (by simp)
  rw [h0, h1, h2, h3, unpackU32_packU32 n h]

/-- One loop iteration over a well-formed `fmt ` chunk parses its fields and
continues on the remaining stream. -/
theorem wavChunkLoopF_step_fmt (fuel : ℕ) (payload tail : List ℕ) (fmt? : Option FmtInfo)
    (hlen : 16 ≤ payload.length) (hsz : payload.length < 2 ^ 32) :
    wavChunkLoopF (fuel + 1) (fmtTag ++ packU32 payload.length ++ (payload ++ tail)) fmt? =
      wavChunkLoopF fuel tail (some (parseFmt (payload ++ tail))) := by
  rw [List.append_assoc]
  simp only [wavChunkLoopF]
  rw [List.take_left' (show (fmtTag : List ℕ).length = 4 from rfl),
      List.drop_left' (show (fmtTag : List ℕ).length = 4 from rfl),
      List.drop_left' (show (packU32 payload.length).length = 4 from rfl),
      unpackU32_getD_packU32 _ _ hsz]
  have hmax : max payload.length 16 = payload.length := by omega
  rw [hmax, List.drop_left' rfl]
  have h1 : ¬ (fmtTag ++ (packU32 payload.length ++ (payload ++ tail))).length < 4 := by
    simp [fmtTag]
  have h2 : ¬ (packU32 payload.length ++ (payload ++ tail)).length < 4 := by simp
  have h3 : ¬ (payload ++ tail).length < 16 := by simp; omega
  simp [h1, h2, h3]
  rw [if_neg (show ¬ (fmtTag : List ℕ).length + (4 + (payload.length + tail.length)) < 4 from by
        simp only [fmtTag, List.length_cons, List.length_nil]; omega),
      if_neg (show ¬ payload.length + tail.length < 16 from by omega)]

/-- One loop iteration at a `data` chunk ends the walk with its payload. -/
theorem wavChunkLoopF_step_data (fuel : ℕ) (payload tail : List ℕ) (fmt? : Option FmtInfo)
    (hsz : payload.length < 2 ^ 32) :
    wavChunkLoopF (fuel + 1) (dataTag ++ packU32 payload.length ++ (payload ++ tail)) fmt? =
      .ok (fmt?, some payload) := by
  rw [List.append_assoc]
  simp only [wavChunkLoopF]
  rw [List.take_left' (show (dataTag : List ℕ).length = 4 from rfl),
      List.drop_left' (show (dataTag : List ℕ).length = 4 from rfl),
      List.drop_left' (show (packU32 payload.length).length = 4 from rfl),
      unpackU32_getD_packU32 _ _ hsz, List.take_left' rfl]
  have h1 : ¬ (dataTag ++ (packU32 payload.length ++ (payload ++ tail))).length < 4 := by
    simp [dataTag]
  have h2 : ¬ (packU32 payload.length ++ (payload ++ tail)).length < 4 := by simp
  have h3 : (dataTag : List ℕ) ≠ fmtTag := by decide
  simp [h1, h2, h3]
  simp only [dataTag, List.length_cons, List.length_nil]
  omega

/-- One loop iteration over any other well-formed chunk skips it. -/
theorem wavChunkLoopF_step_other (fuel : ℕ) (tag payload tail : List ℕ) (fmt? : Option FmtInfo)
    (htag : tag.length = 4) (hne1 : tag ≠ fmtTag) (hne2 : tag ≠ dataTag)
    (hsz : payload.length < 2 ^ 32) :
    wavChunkLoopF (fuel + 1) (tag ++ packU32 payload.length ++ (payload ++ tail)) fmt? =
      wavChunkLoopF fuel tail fmt? := by
  rw [List.append_assoc]
  simp only [wavChunkLoopF]
  rw [List.take_left' htag, List.drop_left' htag,
      List.drop_left' (show (packU32 payload.length).length = 4 from rfl),
      unpackU32_getD_packU32 _ _ hsz, List.drop_left' rfl]
  have h1 : ¬ (tag ++ (packU32 payload.length ++ (payload ++ tail))).length < 4 := by
    simp [htag]
  have h2 : ¬ (packU32 payload.length ++ (payload ++ tail)).length < 4 := by simp
  simp [h1, h2, hne1, hne2]
  intro hc
  omega

/-- `wavChunkLoopF_step_fmt` at the canonical fuel. -/
theorem wavChunkLoop_fmt (payload tail : List ℕ) (fmt? : Option FmtInfo)
    (hlen : 16 ≤ payload.length) (hsz : payload.length < 2 ^ 32) :
    wavChunkLoop (fmtTag ++ packU32 payload.length ++ (payload ++ tail)) fmt? =
      wavChunkLoop tail (some (parseFmt (payload ++ tail))) := by
  unfold wavChunkLoop
  have hL : (fmtTag ++ packU32 payload.length ++ (payload ++ tail)).length + 1 =
      (8 + payload.length + tail.length) + 1 := by
    simp only [List.length_append, packU32_length, fmtTag, List.length_cons, List.length_nil]
    omega
  rw [hL, wavChunkLoopF_step_fmt _ _ _ _ hlen hsz]
  exact wavChunkLoopF_irrel _ _ tail _ (by omega) (by omega)

/-- `wavChunkLoopF_step_data` at the canonical fuel. -/
theorem wavChunkLoop_data (payload tail : List ℕ) (fmt? : Option FmtInfo)
    (hsz : payload.length < 2 ^ 32) :
    wavChunkLoop (dataTag ++ packU32 payload.length ++ (payload ++ tail)) fmt? =
      .ok (fmt?, some payload) := by
  unfold wavChunkLoop
  have hL : (dataTag ++ packU32 payload.length ++ (payload ++ tail)).length + 1 =
      (8 + payload.length + tail.length) + 1 := by
    simp only [List.length_append, packU32_length, dataTag, List.length_cons, List.length_nil]
    omega
  rw [hL, wavChunkLoopF_step_data _ _ _ _ hsz]

/-- `wavChunkLoopF_step_other` at the canonical fuel. -/
theorem wavChunkLoop_other (tag payload tail : List ℕ) (fmt? : Option FmtInfo)
    (htag : tag.length = 4) (hne1 : tag ≠ fmtTag) (hne2 : tag ≠ dataTag)
    (hsz : payload.length < 2 ^ 32) :
    wavChunkLoop (tag ++ packU32 payload.length ++ (payload ++ tail)) fmt? =
      wavChunkLoop tail fmt? := by
  unfold wavChunkLoop
  have hL : (tag ++ packU32 payload.length ++ (payload ++ tail)).length + 1 =
      (8 + payload.length + tail.length) + 1 := by
    simp only [List.length_append, packU32_length, htag]
    omega
  rw [hL, wavChunkLoopF_step_other _ _ _ _ _ htag hne1 hne2 hsz]
  exact wavChunkLoopF_irrel _ _ tail _ (by omega) (by omega)

/-- The fixed 12-byte `RIFF`/size/`WAVE` prefix of a WAV stream. -/
def riffHeader (sz : ℕ) : List ℕ := riffTag ++ packU32 sz ++ waveTag

/-- `read_wav` on a stream with a valid header reduces to the chunk walk. -/
theorem read_wav_header (sz : ℕ) (rest : List ℕ) :
    read_wav (riffHeader sz ++ rest) =
      match wavChunkLoop rest none with
      | .error e => .error e
      | .ok (fmt?, data?) => wavFinish fmt? data? := by
  unfold read_wav riffHeader
  have e1 : ((riffTag ++ packU32 sz ++ waveTag) ++ rest).take 4 = riffTag := by
    rw [show (riffTag ++ packU32 sz ++ waveTag) ++ rest =
        riffTag ++ (packU32 sz ++ (waveTag ++ rest)) by simp,
      List.take_left' (show (riffTag : List ℕ).length = 4 from rfl)]
  have e2 : ((riffTag ++ packU32 sz ++ waveTag) ++ rest).drop 8 = waveTag ++ rest := by
    rw [show (riffTag ++ packU32 sz ++ waveTag) ++ rest =
        (riffTag ++ packU32 sz) ++ (waveTag ++ rest) by simp,
      List.drop_left' (show (riffTag ++ packU32 sz).length = 8 by simp [riffTag])]
  have e3 : ((riffTag ++ packU32 sz ++ waveTag) ++ rest).drop 12 = rest := by
    rw [List.drop_left'
      (show (riffTag ++ packU32 sz ++ waveTag).length = 12 by simp [riffTag, waveTag])]
  rw [e1, e2, e3, List.take_left' (show (waveTag : List ℕ).length = 4 from rfl)]
  simp

/-! ### Segmentation

Two distinct segmentation routines exist in the repository.

The preprocessor handler (`src/lambdas/preprocessor/handler.py`, lines
113–140) computes `num_segments = int(duration_seconds / SEGMENT_DURATION)`
with `duration_seconds = len(samples) / TARGET_SAMPLE_RATE`, then takes the
full 160,000-sample slices; in exact arithmetic
`int((len / 32000) / 5.0) = len / 160000` (floor).  It never pads: any
partial final remainder is discarded.

The inference container (`preprocess_audio` in
`src/infrastructure/lambda_container/inference.py`, lines 129–141) takes
the full windows from `range(0, len - W + 1, W)` and additionally appends
the final remainder zero-padded to a full window when
`remaining > WINDOW_SAMPLES // 2`. -/

def SEGMENT_SAMPLES : ℕ := 160000
def WINDOW_SAMPLES : ℕ := 160000

/-- `num_segments = int(duration_seconds / SEGMENT_DURATION)` of the
preprocessor handler, in exact arithmetic. -/
def numSegmentsPre (len : ℕ) : ℕ := len / SEGMENT_SAMPLES

/-- The preprocessor handler's segmentation loop: for each
`i < num_segments`, append `samples[start:end]` guarded by
`end <= len(samples)`. -/
def preprocSegments (samples : List ℚ) : List (List ℚ) :=
  (List.range (numSegmentsPre samples.length)).filterMap fun i =>
    if (i + 1) * SEGMENT_SAMPLES ≤ samples.length then
      some ((samples.drop (i * SEGMENT_SAMPLES)).take SEGMENT_SAMPLES)
    else none

/-- The windowing step of the inference container's `preprocess_audio`:
full windows from `range(0, len - W + 1, W)`, then the zero-padded final
window iff `len % W > W // 2`. -/
def segmentWindows (audio : List ℚ) : List (List ℚ) :=
  let windows := (List.range (audio.length / WINDOW_SAMPLES)).map fun i =>
    (audio.drop (i * WINDOW_SAMPLES)).take WINDOW_SAMPLES
  let remaining := audio.length % WINDOW_SAMPLES
  if WINDOW_SAMPLES / 2 < remaining then
    windows ++ [audio.drop (audio.length - remaining) ++
      List.replicate (WINDOW_SAMPLES - remaining) 0]
  else windows

/-- The slice guard `end <= len(samples)` always holds, so the preprocessor
emits exactly `len / 160000` windows. -/
theorem preprocSegments_length (samples : List ℚ) :
    (preprocSegments samples).length = samples.length / SEGMENT_SAMPLES := by
  unfold preprocSegments numSegmentsPre
  have h : ∀ i ∈ List.range (samples.length / SEGMENT_SAMPLES),
      (if (i + 1) * SEGMENT_SAMPLES ≤ samples.length then
        some ((samples.drop (i * SEGMENT_SAMPLES)).take SEGMENT_SAMPLES)
      else none) =
        some ((samples.drop (i * SEGMENT_SAMPLES)).take SEGMENT_SAMPLES) := by
    intro i hi
    rw [List.mem_range] at hi
    rw [if_pos]
    have := Nat.div_mul_le_self samples.length SEGMENT_SAMPLES
    have hle : (i + 1) * SEGMENT_SAMPLES ≤ (samples.length / SEGMENT_SAMPLES) * SEGMENT_SAMPLES :=
      Nat.mul_le_mul_right _ hi
    omega
  rw [List.filterMap_congr h,
    show (fun i => some ((samples.drop (i * SEGMENT_SAMPLES)).take SEGMENT_SAMPLES)) =
      some ∘ (fun i => (samples.drop (i * SEGMENT_SAMPLES)).take SEGMENT_SAMPLES) from rfl,
    List.filterMap_eq_map, List.length_map, List.length_range]

/-! ### Resampler (`resample_linear` in `src/lambdas/preprocessor/handler.py`)

The Python computes, for each output index `i`,
`output_positions[i] = i * orig_rate / target_rate`, truncates to
`indices = output_positions.astype(np.int32)`, computes
`fractions = output_positions - indices` **before** clipping, and only then
clips `indices = np.clip(indices, 0, len(samples) - 2)`.  Samples are exact
rationals here; the float computation follows the same formulas. -/

def resample_linear (samples : List ℚ) (orig_rate target_rate : ℕ) : List ℚ :=
  if orig_rate = target_rate then samples
  else
    -- num_output = int(duration * target_rate), duration = len / orig_rate
    let num_output := samples.length * target_rate / orig_rate
    (List.range num_output).map fun i =>
      let pos : ℚ := ((i * orig_rate : ℕ) : ℚ) / (target_rate : ℚ)
      let idxRaw : ℕ := i * orig_rate / target_rate      -- astype(np.int32)
      let frac : ℚ := pos - idxRaw                       -- computed BEFORE the clip
      let idx : ℕ := min idxRaw (samples.length - 2)     -- np.clip(indices, 0, len - 2)
      samples.getD idx 0 * (1 - frac) + samples.getD (idx + 1) 0 * frac

/-- The interpolation law exactly as the spec sentence states it: `idx` is
`floor(p)` clamped to `[0, len - 2]` and the fraction is `p - idx`,
computed FROM THE CLAMPED index. -/
def resampleClaimed (samples : List ℚ) (orig_rate target_rate : ℕ) : List ℚ :=
  if orig_rate = target_rate then samples
  else
    let num_output := ⌊((samples.length : ℚ) / (orig_rate : ℚ)) * (target_rate : ℚ)⌋₊
    (List.range num_output).map fun i =>
      let pos : ℚ := ((i * orig_rate : ℕ) : ℚ) / (target_rate : ℚ)
      let idx : ℕ := min ⌊pos⌋₊ (samples.length - 2)
      let frac : ℚ := pos - idx
      samples.getD idx 0 * (1 - frac) + samples.getD (idx + 1) 0 * frac

/-- The corrected interpolation law: as `resampleClaimed` but with the
fraction computed from the unclamped `floor(p)`. -/
def resampleAmended (samples : List ℚ) (orig_rate target_rate : ℕ) : List ℚ :=
  if orig_rate = target_rate then samples
  else
    let num_output := ⌊((samples.length : ℚ) / (orig_rate : ℚ)) * (target_rate : ℚ)⌋₊
    (List.range num_output).map fun i =>
      let pos : ℚ := ((i * orig_rate : ℕ) : ℚ) / (target_rate : ℚ)
      let frac : ℚ := pos - ⌊pos⌋₊
      let idx : ℕ := min ⌊pos⌋₊ (samples.length - 2)
      samples.getD idx 0 * (1 - frac) + samples.getD (idx + 1) 0 * frac

theorem natFloor_natCast_div (m n : ℕ) : ⌊((m : ℚ)) / (n : ℚ)⌋₊ = m / n := by
  rw [Nat.floor_div_nat, Nat.floor_natCast]

/-- **C2 (amended).** For distinct positive rates and at least two samples,
`resample_linear` agrees with the law in which the fraction comes from the
unclamped floor of the source position (and the clamp applies to the index
only), and its output length is `floor(len × target / orig)`. -/
theorem resample_linear_amended_law (samples : List ℚ) (orig_rate target_rate : ℕ)
    (hne : orig_rate ≠ target_rate) (ho : 0 < orig_rate) (ht : 0 < target_rate)
    (hlen : 2 ≤ samples.length) :
    resample_linear samples orig_rate target_rate =
      resampleAmended samples orig_rate target_rate ∧
    (resample_linear samples orig_rate target_rate).length =
      samples.length * target_rate / orig_rate := by
  have hnum : ⌊((samples.length : ℚ) / (orig_rate : ℚ)) * (target_rate : ℚ)⌋₊ =
      samples.length * target_rate / orig_rate := by
    rw [show ((samples.length : ℚ) / (orig_rate : ℚ)) * (target_rate : ℚ) =
        ((samples.length * target_rate : ℕ) : ℚ) / (orig_rate : ℚ) by push_cast; ring]
    exact natFloor_natCast_div _ _
  constructor
  · unfold resample_linear resampleAmended
    rw [if_neg hne, if_neg hne, hnum]
    refine List.map_congr_left fun i _ => ?_
    have hfloor : ⌊((i * orig_rate : ℕ) : ℚ) / (target_rate : ℚ)⌋₊ =
        i * orig_rate / target_rate := natFloor_natCast_div _ _
    simp only [hfloor]
  · unfold resample_linear
    rw [if_neg hne]
    simp

/-- Witness for C2's amended law at `[0, 1]`, rates `1 → 3`. -/
theorem resample_linear_amended_law_witness :
    resample_linear [0, 1] 1 3 = resampleAmended [0, 1] 1 3 ∧
    (resample_linear [0, 1] 1 3).length = ([(0 : ℚ), 1] : List ℚ).length * 3 / 1 :=
  resample_linear_amended_law [0, 1] 1 3 (by norm_num) (by norm_num) (by norm_num)
    (by norm_num)

/-- **C2, counterexample.** At `samples = [0, 1]`, `orig_rate = 1`,
`target_rate = 3`, the code's output (fraction taken before clipping)
differs from the claimed law (fraction from the clamped index): the code
yields `[0, 1/3, 2/3, 0, 1/3, 2/3]`, the claimed law `[0, 1/3, 2/3, 1, 4/3, 5/3]`. -/
theorem resample_linear_counterexample :
    resample_linear [0, 1] 1 3 ≠ resampleClaimed [0, 1] 1 3 := by
  have hcode : resample_linear [0, 1] 1 3 = [0, 1/3, 2/3, 0, 1/3, 2/3] := by
    unfold resample_linear
    rw [if_neg (by norm_num)]
    show List.map _ (List.range ([(0 : ℚ), 1].length * 3 / 1)) = _
    rw [show List.range ([(0 : ℚ), 1].length * 3 / 1) = [0, 1, 2, 3, 4, 5] from rfl]
    simp [List.getD]
    norm_num
  have hclaim : resampleClaimed [0, 1] 1 3 = [0, 1/3, 2/3, 1, 4/3, 5/3] := by
    unfold resampleClaimed
    rw [if_neg (by norm_num)]
    show List.map _ (List.range ⌊(([(0 : ℚ), 1].length : ℚ) / ((1 : ℕ) : ℚ)) * ((3 : ℕ) : ℚ)⌋₊) = _
    rw [show ⌊(([(0 : ℚ), 1].length : ℚ) / ((1 : ℕ) : ℚ)) * ((3 : ℕ) : ℚ)⌋₊ = 6 by norm_num]
    rw [show List.range 6 = [0, 1, 2, 3, 4, 5] from rfl]
    simp [List.getD]
    try norm_num
  rw [hcode, hclaim]
  simp
  try norm_num

/-! ### C1: segmentation counts -/

/-- **C1 (amended).** For a processed stream of `n` full windows plus a
remainder `r` with `0 < r < 160000`: the inference container's
`preprocess_audio` windowing produces the `n` full windows plus one final
zero-padded window iff `r > 80000` (discarding the remainder otherwise),
while the preprocessor handler's segmentation always produces exactly the
`n` full windows, discarding the remainder regardless of its size. -/
theorem segmentation_partial_window_policy (audio : List ℚ) (n r : ℕ)
    (h : audio.length = n * 160000 + r) (hr0 : 0 < r) (hr1 : r < 160000) :
    (preprocSegments audio).length = n ∧
    (80000 < r → segmentWindows audio =
      ((List.range n).map fun i => (audio.drop (i * 160000)).take 160000) ++
        [audio.drop (n * 160000) ++ List.replicate (160000 - r) 0]) ∧
    (r ≤ 80000 → segmentWindows audio =
      (List.range n).map fun i => (audio.drop (i * 160000)).take 160000) := by
  have hdiv : audio.length / WINDOW_SAMPLES = n := by
    rw [h]; unfold WINDOW_SAMPLES; omega
  have hmod : audio.length % WINDOW_SAMPLES = r := by
    rw [h]; unfold WINDOW_SAMPLES; omega
  have hsub : audio.length - r = n * 160000 := by omega
  refine ⟨?_, ?_, ?_⟩
  · rw [preprocSegments_length, h]; unfold SEGMENT_SAMPLES; omega
  · intro hr
    unfold segmentWindows
    simp only [hdiv, hmod, hsub]
    rw [if_pos (show WINDOW_SAMPLES / 2 < r by unfold WINDOW_SAMPLES; omega)]
    rfl
  · intro hr
    unfold segmentWindows
    simp only [hdiv, hmod]
    rw [if_neg (show ¬ WINDOW_SAMPLES / 2 < r by unfold WINDOW_SAMPLES; omega)]
    rfl

/-- **C1, counterexample.** A processed stream of 250,001 samples is one
full window plus a 90,001-sample tail (`> 80000`); the claim predicts the
segmentation step yields 2 windows, but the preprocessor handler's
segmentation yields exactly 1 — the tail is discarded, not padded. -/
theorem preprocSegments_drops_large_tail :
    (preprocSegments (List.replicate 250001 (0 : ℚ))).length = 1 ∧
    (preprocSegments (List.replicate 250001 (0 : ℚ))).length ≠ 1 + 1 := by
  rw [preprocSegments_length, List.length_replicate]
  unfold SEGMENT_SAMPLES
  omega

/-- Witness: the amended C1 applied to a 250,001-sample stream
(`n = 1, r = 90001 > 80000`: one padded extra window in `preprocess_audio`,
nothing extra in the preprocessor) and to a 210,000-sample stream
(`n = 1, r = 50000 ≤ 80000`: remainder dropped by both). -/
theorem segmentation_partial_window_policy_witness :
    (preprocSegments (List.replicate 250001 (0 : ℚ))).length = 1 ∧
    (segmentWindows (List.replicate 250001 (0 : ℚ))).length = 2 ∧
    (segmentWindows (List.replicate 210000 (0 : ℚ))).length = 1 := by
  have h1 := segmentation_partial_window_policy (List.replicate 250001 (0 : ℚ)) 1 90001
    (by rw [List.length_replicate]) (by norm_num) (by norm_num)
  have h2 := segmentation_partial_window_policy (List.replicate 210000 (0 : ℚ)) 1 50000
    (by rw [List.length_replicate]) (by norm_num) (by norm_num)
  refine ⟨h1.1, ?_, ?_⟩
  · rw [h1.2.1 (by norm_num)]
    simp only [List.length_append, List.length_map, List.length_range, List.length_cons,
      List.length_nil]
  · rw [h2.2.2 (by norm_num)]
    simp only [List.length_map, List.length_range]

/-! ### C3: WAV round-trip -/

theorem flatMap_int16Bytes_length (samples : List ℤ) :
    (samples.flatMap int16Bytes).length = samples.length * 2 := by
  induction samples with
  | nil => rfl
  | cons s rest ih =>
    simp only [List.flatMap_cons, List.length_append, ih, int16Bytes_length, List.length_cons]
    omega

/-- **C3 (amended).** For every sample rate below `2^31` and int16 sample
sequence whose data size fits the 32-bit header fields, `write_wav`
succeeds and `read_wav` on its output recovers the rate, 1 channel, 16-bit
depth, and the original samples. -/
theorem wav_roundtrip (rate : ℕ) (samples : List ℤ)
    (hrate : rate < 2 ^ 31) (hlen : 36 + samples.length * 2 < 2 ^ 32)
    (hs : ∀ s ∈ samples, -32768 ≤ s ∧ s < 32768) :
    ∃ bs, write_wav rate samples = some bs ∧
      read_wav bs = .ok ⟨rate, 1, 16, samples⟩ := by
  have hba : (1 : ℕ) * 16 / 8 = 2 := by norm_num
  have hbr : rate * 1 * 16 / 8 = rate * 2 := by omega
  have hcond : 36 + samples.length * (1 * 16 / 8) < 2 ^ 32 ∧ rate < 2 ^ 32 ∧
      rate * 1 * 16 / 8 < 2 ^ 32 := by omega
  -- abbreviations: fmt payload, data payload
  set P : List ℕ := packU16 1 ++ packU16 1 ++ packU32 rate ++ packU32 (rate * 2) ++
    packU16 2 ++ packU16 16 with hPdef
  set D : List ℕ := samples.flatMap int16Bytes with hDdef
  have hPlen : P.length = 16 := by simp [hPdef]
  have hDlen : D.length = samples.length * 2 := flatMap_int16Bytes_length samples
  refine ⟨riffHeader (36 + samples.length * 2) ++
    (fmtTag ++ packU32 P.length ++ (P ++ (dataTag ++ packU32 D.length ++ (D ++ [])))), ?_, ?_⟩
  · unfold write_wav
    rw [if_pos hcond]
    rw [hba, hbr, hPlen, hDlen]
    simp only [riffHeader, hPdef, hDdef, List.append_assoc, List.append_nil, hba]
  · rw [read_wav_header]
    rw [wavChunkLoop_fmt P _ none (by rw [hPlen]) (by rw [hPlen]; norm_num)]
    rw [show dataTag ++ packU32 D.length ++ (D ++ []) =
      dataTag ++ packU32 D.length ++ (D ++ []) from rfl]
    rw [wavChunkLoop_data D [] _ (by rw [hDlen]; omega)]
    have hfmt : parseFmt (P ++ (dataTag ++ packU32 D.length ++ (D ++ []))) =
        ⟨1, 1, rate, 16⟩ := by
      show FmtInfo.mk (unpackU16 (1 % 256) (1 / 256 % 256)) (unpackU16 (1 % 256) (1 / 256 % 256))
        (unpackU32 (rate % 256) (rate / 256 % 256) (rate / 256 ^ 2 % 256) (rate / 256 ^ 3 % 256))
        (unpackU16 (16 % 256) (16 / 256 % 256)) = _
      rw [unpackU32_packU32 rate (by omega)]
      rfl
    rw [hfmt]
    show wavFinish (some ⟨1, 1, rate, 16⟩) (some D) = _
    unfold wavFinish
    simp only
    rw [if_pos trivial, if_pos (show D.length % 2 = 0 by omega),
      if_neg (show ¬((1 : ℕ) < 1 ∧ (decodeInt16 D).length % 1 ≠ 0) by simp),
      decodeInt16_flatMap samples hs]

/-- Witness for C3: a concrete 8000 Hz three-sample round trip. -/
theorem wav_roundtrip_witness :
    ∃ bs, write_wav 8000 [0, -1, 32767] = some bs ∧
      read_wav bs = .ok ⟨8000, 1, 16, [0, -1, 32767]⟩ :=
  wav_roundtrip 8000 [0, -1, 32767] (by norm_num) (by norm_num) (by decide)

/-- **C3, counterexample.** At sample rate `2^31` (a positive integer) the
encoder itself fails — `struct.pack('<I', byte_rate)` overflows — so the
claimed round trip does not hold for *every* positive sample rate. -/
theorem write_wav_overflow : write_wav 2147483648 [] = none := by decide

/-! ### C10: fmt chunk present, data chunk absent -/

/-- Well-formedness of one encoded chunk `(id, payload)`: a 4-byte id, a
declared size that fits the 32-bit field, not a `data` chunk, and (for
`fmt ` chunks) at least the 16 bytes the parser reads. -/
def ChunkWF (c : List ℕ × List ℕ) : Prop :=
  c.1.length = 4 ∧ c.2.length < 2 ^ 32 ∧ c.1 ≠ dataTag ∧ (c.1 = fmtTag → 16 ≤ c.2.length)

instance (c : List ℕ × List ℕ) : Decidable (ChunkWF c) := by
  unfold ChunkWF; infer_instance

/-- The byte encoding of one chunk: id, little-endian size, payload. -/
def chunkBytes (c : List ℕ × List ℕ) : List ℕ := c.1 ++ packU32 c.2.length ++ c.2

/-- The effect of walking one chunk on the parsed fmt state: a `fmt ` chunk
overwrites the fields, anything else leaves them. -/
def updFmt (fmt? : Option FmtInfo) (c : List ℕ × List ℕ) : Option FmtInfo :=
  if c.1 = fmtTag then some (parseFmt c.2) else fmt?

theorem parseFmt_append (p t : List ℕ) (h : 16 ≤ p.length) :
    parseFmt (p ++ t) = parseFmt p := by
  unfold parseFmt
  rw [List.getD_append _ _ _ _ (by omega), List.getD_append _ _ _ _ (by omega),
    List.getD_append _ _ _ _ (by omega), List.getD_append _ _ _ _ (by omega),
    List.getD_append _ _ _ _ (by omega), List.getD_append _ _ _ _ (by omega),
    List.getD_append _ _ _ _ (by omega), List.getD_append _ _ _ _ (by omega),
    List.getD_append _ _ _ _ (by omega), List.getD_append _ _ _ _ (by omega)]

/-- Walking a sequence of well-formed non-`data` chunks folds the fmt
updates and ends at end-of-stream with no data payload. -/
theorem wavChunkLoop_chunks (cs : List (List ℕ × List ℕ))
    (h : ∀ c ∈ cs, ChunkWF c) :
    ∀ fmt?, wavChunkLoop (cs.flatMap chunkBytes) fmt? = .ok (cs.foldl updFmt fmt?, none) := by
  induction cs with
  | nil => intro fmt?; exact wavChunkLoop_nil fmt?
  | cons c cs ih =>
    intro fmt?
    obtain ⟨h4, hsz, hnd, hf⟩ := h c (List.mem_cons_self c cs)
    have hrest : ∀ x ∈ cs, ChunkWF x := fun x hx => h x (List.mem_cons_of_mem c hx)
    have hshape : (c :: cs).flatMap chunkBytes =
        c.1 ++ packU32 c.2.length ++ (c.2 ++ cs.flatMap chunkBytes) := by
      simp [chunkBytes, List.append_assoc]
    rw [hshape]
    by_cases hc : c.1 = fmtTag
    · rw [hc, wavChunkLoop_fmt _ _ _ (hf hc) hsz,
        parseFmt_append _ _ (hf hc), ih hrest]
      simp [updFmt, hc]
    · rw [wavChunkLoop_other _ _ _ _ h4 hc hnd hsz, ih hrest]
      simp [updFmt, hc]

/-- **C10.** A byte stream with valid `RIFF`/`WAVE` markers whose chunk
sequence is well formed, contains no `data` chunk, and whose parsed fmt
fields carry a supported bit depth (8/16/32) makes `read_wav` fail with the
unbound-local (`NameError`) failure — not `InvalidAudioFormatError` — and
the preprocessor handler records it under `PROCESSING_FAILED`, not
`INVALID_AUDIO_FORMAT`. -/
theorem read_wav_missing_data_chunk (sz : ℕ) (cs : List (List ℕ × List ℕ)) (f : FmtInfo)
    (hwf : ∀ c ∈ cs, ChunkWF c)
    (heff : cs.foldl updFmt none = some f)
    (hbits : f.bitsPerSample = 8 ∨ f.bitsPerSample = 16 ∨ f.bitsPerSample = 32) :
    read_wav (riffHeader sz ++ cs.flatMap chunkBytes) = .error .nameError ∧
    preprocessorErrorCode .nameError = "PROCESSING_FAILED" := by
  refine ⟨?_, rfl⟩
  rw [read_wav_header, wavChunkLoop_chunks cs hwf none, heff]
  show wavFinish (some f) none = _
  unfold wavFinish
  rcases hbits with hb | hb | hb <;> simp [hb]

/-- Witness for C10: a stream holding exactly one complete 16-bit `fmt `
chunk and nothing else decodes to the `NameError` failure, reported as
`PROCESSING_FAILED`. -/
theorem read_wav_missing_data_chunk_witness :
    read_wav (riffHeader 0 ++
      [((fmtTag, [1, 0, 1, 0, 64, 31, 0, 0, 128, 62, 0, 0, 2, 0, 16, 0]) :
        List ℕ × List ℕ)].flatMap chunkBytes) = .error .nameError ∧
    preprocessorErrorCode .nameError = "PROCESSING_FAILED" :=
  read_wav_missing_data_chunk 0 _ ⟨1, 1, 8000, 16⟩ (by decide) (by decide) (by decide)

/-! ### Classifier core (`src/lambdas/classifier/handler.py`)

Embeddings are `List ℝ`: `cosine_similarity` divides by `np.linalg.norm`,
a real square root, so this part of the embedding is noncomputable (real
comparisons use the classical order instances). -/

noncomputable section Classifier

open scoped Classical

/-- `np.dot` of two equal-length vectors. -/
def dotList (a b : List ℝ) : ℝ := ((a.zip b).map fun p => p.1 * p.2).sum

/-- `np.linalg.norm`: the square root of the sum of squares. -/
def normList (a : List ℝ) : ℝ := Real.sqrt ((a.map fun x => x * x).sum)

/-- `cosine_similarity` (handler lines 238–247): returns `0.0` when either
norm is zero, else the normalized dot product. -/
def cosine_similarity (a b : List ℝ) : ℝ :=
  if normList a = 0 ∨ normList b = 0 then 0
  else dotList a b / (normList a * normList b)

/-- One reference-metadata record as the classifier reads it:
`ref.get('site_type', 'U')` and `ref.get('mean_embedding', [])`. -/
structure RefSite where
  site_type : String
  mean_embedding : List ℝ

/-- The per-category similarity buckets (lines 176–185): a site contributes
its cosine similarity to the bucket of its `site_type` iff its embedding
length equals the query's (mismatched sites are skipped by the
`if len(ref_embedding) == len(embedding)` guard). -/
def catSims (embedding : List ℝ) (refs : List RefSite) (code : String) : List ℝ :=
  (refs.filter fun r =>
    decide (r.mean_embedding.length = embedding.length ∧ r.site_type = code)).map
    fun r => cosine_similarity embedding r.mean_embedding

/-- `category_map` insertion order: H, D, R, M. -/
def CATEGORY_MAP : List (String × String) :=
  [("H", "healthy"), ("D", "degraded"), ("R", "restored_early"), ("M", "restored_mid")]

/-- `float(np.mean(sims)) if sims else 0.1` (line 191). -/
def categoryScore (embedding : List ℝ) (refs : List RefSite) (code : String) : ℝ :=
  let sims := catSims embedding refs code
  if sims = [] then 0.1 else sims.sum / sims.length

/-- The `probabilities` dict before normalization, in insertion order. -/
def rawProbs (embedding : List ℝ) (refs : List RefSite) : List (String × ℝ) :=
  CATEGORY_MAP.map fun c => (c.2, categoryScore embedding refs c.1)

/-- Lines 193–196: normalize to sum 1 only `if total > 0`. -/
def normalizeProbs (ps : List (String × ℝ)) : List (String × ℝ) :=
  let total := (ps.map Prod.snd).sum
  if 0 < total then ps.map fun p => (p.1, p.2 / total) else ps

/-- Python's `max(probabilities, key=probabilities.get)` over the dict in
insertion order: scan left to right, replacing the current best only on a
strictly greater value — so the FIRST maximal entry wins. -/
def maxByFirst (x : String × ℝ) (xs : List (String × ℝ)) : String × ℝ :=
  xs.foldl (fun best y => if best.2 < y.2 then y else best) x

structure ClassificationResult where
  label : String
  confidence : ℝ
  probabilities : List (String × ℝ)

/-- The similarity-scoring path of `classify_embedding` (the code after the
empty-corpus early return). -/
def classifyNonempty (embedding : List ℝ) (refs : List RefSite) : ClassificationResult :=
  let probs := normalizeProbs (rawProbs embedding refs)
  let best := maxByFirst probs.headI probs.tail
  ⟨best.1, best.2, probs⟩

/-- `classify_embedding` (lines 160–205): a fixed placeholder when the
reference corpus is absent/empty, else similarity-based scores. -/
def classify_embedding (embedding : List ℝ) (reference_data : List RefSite) :
    ClassificationResult :=
  if reference_data = [] then
    ⟨"healthy", 0.65,
      [("healthy", 0.65), ("degraded", 0.15), ("restored_early", 0.10), ("restored_mid", 0.10)]⟩
  else classifyNonempty embedding reference_data

/-! ### Embedding aggregation (handler lines 99–100)

`np.array(embeddings).mean(axis=0)`: on an empty batch NumPy emits a
runtime *warning* and evaluates to a NaN scalar — it does not raise; on a
nonempty rectangular batch it is the elementwise mean. -/

/-- What `np.array(embeddings).mean(axis=0)` evaluates to. -/
inductive NpMeanResult where
  | scalarNan
  | vec (v : List ℝ)

/-- Elementwise mean of a nonempty rectangular batch. -/
def elementwiseMean (rows : List (List ℝ)) : List ℝ :=
  (List.range rows.headI.length).map fun j =>
    (rows.map fun r => r.getD j 0).sum / rows.length

/-- The aggregation step as the code performs it. -/
def npMeanAxis0 (rows : List (List ℝ)) : NpMeanResult :=
  if rows = [] then .scalarNan else .vec (elementwiseMean rows)

inductive AggError where
  | emptyBatch

/-- The aggregation step as the spec's words state it: `EmptyBatch` on an
empty sequence, the elementwise arithmetic mean otherwise (stated for
comparison with `npMeanAxis0`). -/
def aggregate_spec (rows : List (List ℝ)) : Except AggError (List ℝ) :=
  if rows = [] then .error .emptyBatch else .ok (elementwiseMean rows)

/-! #### Properties of the first-wins max scan -/

theorem maxByFirst_cons (x y : String × ℝ) (ys : List (String × ℝ)) :
    maxByFirst x (y :: ys) = maxByFirst (if x.2 < y.2 then y else x) ys := rfl

theorem maxByFirst_mem : ∀ (xs : List (String × ℝ)) (x), maxByFirst x xs ∈ x :: xs
  | [], x => by simp [maxByFirst]
  | y :: ys, x => by
    rw [maxByFirst_cons]
    rcases List.mem_cons.1 (maxByFirst_mem ys (if x.2 < y.2 then y else x)) with h | h
    · rw [h]
      split_ifs
      · exact List.mem_cons_of_mem _ (List.mem_cons_self _ _)
      · exact List.mem_cons_self _ _
    · exact List.mem_cons_of_mem _ (List.mem_cons_of_mem _ h)

theorem maxByFirst_le : ∀ (xs : List (String × ℝ)) (x) (y), y ∈ x :: xs →
    y.2 ≤ (maxByFirst x xs).2
  | [], x, y, hy => by
    rcases List.mem_cons.1 hy with h | h
    · rw [h]; exact le_refl _
    · simp at h
  | z :: zs, x, y, hy => by
    rw [maxByFirst_cons]
    have hstep : ∀ u, u ∈ (if x.2 < z.2 then z else x) :: zs →
        u.2 ≤ (maxByFirst (if x.2 < z.2 then z else x) zs).2 :=
      fun u hu => maxByFirst_le zs _ u hu
    rcases List.mem_cons.1 hy with h | h
    · rw [h]
      have hx : x.2 ≤ (if x.2 < z.2 then z else x).2 := by
        split_ifs with hlt
        · exact le_of_lt hlt
        · exact le_refl _
      exact le_trans hx (hstep _ (List.mem_cons_self _ _))
    · rcases List.mem_cons.1 h with h' | h'
      · rw [h']
        have hz : z.2 ≤ (if x.2 < z.2 then z else x).2 := by
          split_ifs with hlt
          · exact le_refl _
          · exact le_of_not_lt hlt
        exact le_trans hz (hstep _ (List.mem_cons_self _ _))
      · exact hstep y (List.mem_cons_of_mem _ h')

/-- Over exactly four entries, the first-wins scan picks the first entry
achieving the maximum, in list order. -/
theorem maxByFirst_four (l1 l2 l3 l4 : String × ℝ) :
    (maxByFirst l1 [l2, l3, l4]).1 =
      (if l2.2 ≤ l1.2 ∧ l3.2 ≤ l1.2 ∧ l4.2 ≤ l1.2 then l1.1
       else if l3.2 ≤ l2.2 ∧ l4.2 ≤ l2.2 then l2.1
       else if l4.2 ≤ l3.2 then l3.1
       else l4.1) := by
  unfold maxByFirst
  simp only [List.foldl]
  split_ifs <;> first
    | rfl
    | (exfalso
       simp only [not_and_or, not_le, not_lt] at *
       first
        | linarith
        | (casesm* _ ∨ _ <;> linarith))

/-! ### C8: cosine similarity boundary behaviour -/

/-- **C8.** For equal-dimension vectors the code's cosine similarity is the
normalized dot product when both norms are nonzero and exactly `0.0` when
either norm is zero; in particular a zero vector against anything gives
`0.0`.  (In this real-valued model there is no NaN; the explicit
`if norm == 0` guard in the code is what makes the boundary value `0.0`
rather than an invalid division.) -/
theorem cosine_similarity_boundary (a b : List ℝ) (hdim : a.length = b.length) :
    (normList a = 0 ∨ normList b = 0 → cosine_similarity a b = 0) ∧
    (normList a ≠ 0 → normList b ≠ 0 →
      cosine_similarity a b = dotList a b / (normList a * normList b)) ∧
    cosine_similarity (List.replicate a.length 0) b = 0 := by
  refine ⟨fun h => ?_, fun h1 h2 => ?_, ?_⟩
  · unfold cosine_similarity
    rw [if_pos h]
  · unfold cosine_similarity
    rw [if_neg (by tauto)]
  · have hz : normList (List.replicate a.length (0 : ℝ)) = 0 := by
      unfold normList
      rw [List.map_replicate]
      norm_num
    unfold cosine_similarity
    rw [if_pos (Or.inl hz)]

/-- Witness for C8 at `a = [0, 0]`, `b = [3, 4]`. -/
theorem cosine_similarity_boundary_witness :
    (normList [0, 0] = 0 ∨ normList [3, 4] = 0 → cosine_similarity [0, 0] [3, 4] = 0) ∧
    (normList [0, 0] ≠ 0 → normList [3, 4] ≠ 0 →
      cosine_similarity [0, 0] [3, 4] = dotList [0, 0] [3, 4] /
        (normList [0, 0] * normList [3, 4])) ∧
    cosine_similarity (List.replicate ([0, 0] : List ℝ).length 0) [3, 4] = 0 :=
  cosine_similarity_boundary [0, 0] [3, 4] rfl

/-! ### C4: aggregation of the embedding batch -/

/-- **C4, counterexample.** On an empty batch the aggregation step does not
fail with an `EmptyBatch` error: `np.mean` evaluates to a NaN scalar (with
only a warning), while the spec's aggregate prescribes the `EmptyBatch`
failure. -/
theorem aggregation_empty_no_error :
    npMeanAxis0 [] = .scalarNan ∧ aggregate_spec [] = .error .emptyBatch :=
  ⟨rfl, rfl⟩

/-- **C4 (amended).** On any nonempty rectangular batch the aggregation
returns the elementwise arithmetic mean (agreeing with the spec's
aggregate); each output entry is the column sum divided by the row count,
and the dimension is preserved.  On the empty batch the code returns a NaN
scalar instead of an `EmptyBatch` failure; the request then fails later
with a generic `TypeError`. -/
theorem aggregation_nonempty_mean (rows : List (List ℝ)) (d : ℕ)
    (h : rows ≠ []) (hd : ∀ r ∈ rows, r.length = d) :
    npMeanAxis0 rows = .vec (elementwiseMean rows) ∧
    aggregate_spec rows = .ok (elementwiseMean rows) ∧
    (elementwiseMean rows).length = d ∧
    ∀ j, j < d → (elementwiseMean rows).getD j 0 =
      (rows.map fun r => r.getD j 0).sum / rows.length := by
  have hhead : rows.headI.length = d := by
    cases rows with
    | nil => exact absurd rfl h
    | cons r rs => simpa using hd r (List.mem_cons_self r rs)
  refine ⟨?_, ?_, ?_, ?_⟩
  · unfold npMeanAxis0
    rw [if_neg h]
  · unfold aggregate_spec
    rw [if_neg h]
  · unfold elementwiseMean
    rw [List.length_map, List.length_range, hhead]
  · intro j hj
    unfold elementwiseMean
    rw [List.getD_eq_getElem?_getD, List.getElem?_map, List.getElem?_range
      (by rw [hhead]; exact hj)]
    rfl

/-- Witness for C4's amended theorem on the batch `[[1, 3], [3, 5]]`. -/
theorem aggregation_nonempty_mean_witness :
    npMeanAxis0 [[1, 3], [3, 5]] = .vec (elementwiseMean [[1, 3], [3, 5]]) ∧
    aggregate_spec [[1, 3], [3, 5]] = .ok (elementwiseMean [[1, 3], [3, 5]]) ∧
    (elementwiseMean [[1, 3], [3, 5]]).length = 2 ∧
    ∀ j, j < 2 → (elementwiseMean [[(1 : ℝ), 3], [3, 5]]).getD j 0 =
      ([[(1 : ℝ), 3], [3, 5]].map fun r => r.getD j 0).sum / ([[(1 : ℝ), 3], [3, 5]] : List (List ℝ)).length :=
  aggregation_nonempty_mean [[1, 3], [3, 5]] 2 (by simp)
    (by intro r hr; simp at hr; rcases hr with h | h <;> subst h <;> rfl)

/-! ### C5 / C6 / C7: classification results -/

theorem normalizeProbs_four (n1 n2 n3 n4 : String) (s1 s2 s3 s4 : ℝ) :
    normalizeProbs [(n1, s1), (n2, s2), (n3, s3), (n4, s4)] =
      if 0 < s1 + (s2 + (s3 + s4)) then
        [(n1, s1 / (s1 + (s2 + (s3 + s4)))), (n2, s2 / (s1 + (s2 + (s3 + s4)))),
         (n3, s3 / (s1 + (s2 + (s3 + s4)))), (n4, s4 / (s1 + (s2 + (s3 + s4))))]
      else [(n1, s1), (n2, s2), (n3, s3), (n4, s4)] := by
  unfold normalizeProbs
  simp only [List.map_cons, List.map_nil, List.sum_cons, List.sum_nil, add_zero]

theorem classifyNonempty_of_probs (e : List ℝ) (refs : List RefSite)
    (l1 l2 l3 l4 : String × ℝ)
    (hp : normalizeProbs (rawProbs e refs) = [l1, l2, l3, l4]) :
    classifyNonempty e refs =
      ⟨(maxByFirst l1 [l2, l3, l4]).1, (maxByFirst l1 [l2, l3, l4]).2, [l1, l2, l3, l4]⟩ := by
  unfold classifyNonempty
  rw [hp]
  rfl

/-- **C5 (amended).** With an empty corpus the placeholder distribution
sums to 1 and has confidence 0.65.  With a nonempty corpus, the returned
probabilities sum to 1 whenever the raw category-score total is positive
(otherwise the scores are returned unnormalized and need not sum to 1),
and the confidence lies in `[0, 1]` whenever additionally no raw category
score is negative. -/
theorem classify_probability_normalization (e : List ℝ) (refs : List RefSite) :
    (refs = [] → ((classify_embedding e refs).probabilities.map Prod.snd).sum = 1 ∧
      (classify_embedding e refs).confidence = 0.65) ∧
    (refs ≠ [] → 0 < ((rawProbs e refs).map Prod.snd).sum →
      ((classify_embedding e refs).probabilities.map Prod.snd).sum = 1) ∧
    (refs ≠ [] → 0 < ((rawProbs e refs).map Prod.snd).sum →
      (∀ p ∈ rawProbs e refs, 0 ≤ p.2) →
      0 ≤ (classify_embedding e refs).confidence ∧
        (classify_embedding e refs).confidence ≤ 1) := by
  have hraw : rawProbs e refs =
      [("healthy", categoryScore e refs "H"), ("degraded", categoryScore e refs "D"),
       ("restored_early", categoryScore e refs "R"), ("restored_mid", categoryScore e refs "M")] :=
    rfl
  set s1 := categoryScore e refs "H"
  set s2 := categoryScore e refs "D"
  set s3 := categoryScore e refs "R"
  set s4 := categoryScore e refs "M"
  have hsum : ((rawProbs e refs).map Prod.snd).sum = s1 + (s2 + (s3 + s4)) := by
    rw [hraw]
    simp only [List.map_cons, List.map_nil, List.sum_cons, List.sum_nil, add_zero]
  have hnp := normalizeProbs_four "healthy" "degraded" "restored_early" "restored_mid" s1 s2 s3 s4
  rw [← hraw] at hnp
  refine ⟨fun h0 => ?_, fun hne hT => ?_, fun hne hT hnn => ?_⟩
  · unfold classify_embedding
    rw [if_pos h0]
    norm_num
  · rw [hsum] at hT
    rw [if_pos hT] at hnp
    unfold classify_embedding
    rw [if_neg hne, classifyNonempty_of_probs e refs _ _ _ _ hnp]
    show (List.map Prod.snd [_, _, _, _]).sum = 1
    simp only [List.map_cons, List.map_nil, List.sum_cons, List.sum_nil, add_zero]
    field_simp
  · rw [hsum] at hT
    rw [if_pos hT] at hnp
    unfold classify_embedding
    rw [if_neg hne, classifyNonempty_of_probs e refs _ _ _ _ hnp]
    have h1 : 0 ≤ s1 := hnn ("healthy", s1) (by rw [hraw]; exact List.mem_cons_self _ _)
    have h2 : 0 ≤ s2 := hnn ("degraded", s2) (by rw [hraw]; simp)
    have h3 : 0 ≤ s3 := hnn ("restored_early", s3) (by rw [hraw]; simp)
    have h4 : 0 ≤ s4 := hnn ("restored_mid", s4) (by rw [hraw]; simp)
    set T := s1 + (s2 + (s3 + s4)) with hTdef
    have hmem := maxByFirst_mem [("degraded", s2 / T), ("restored_early", s3 / T),
      ("restored_mid", s4 / T)] ("healthy", s1 / T)
    show 0 ≤ (maxByFirst ("healthy", s1 / T) [("degraded", s2 / T), ("restored_early", s3 / T),
        ("restored_mid", s4 / T)]).2 ∧
      (maxByFirst ("healthy", s1 / T) [("degraded", s2 / T), ("restored_early", s3 / T),
        ("restored_mid", s4 / T)]).2 ≤ 1
    have hval : ∀ s : ℝ, 0 ≤ s → s ≤ T → 0 ≤ s / T ∧ s / T ≤ 1 := fun s hs hsT =>
      ⟨div_nonneg hs (le_of_lt hT), (div_le_one hT).2 hsT⟩
    rcases List.mem_cons.1 hmem with h | h
    · rw [h]; exact hval s1 h1 (by rw [hTdef]; linarith)
    rcases List.mem_cons.1 h with h | h
    · rw [h]; exact hval s2 h2 (by rw [hTdef]; linarith)
    rcases List.mem_cons.1 h with h | h
    · rw [h]; exact hval s3 h3 (by rw [hTdef]; linarith)
    rcases List.mem_cons.1 h with h | h
    · rw [h]; exact hval s4 h4 (by rw [hTdef]; linarith)
    · simp at h

/-- **C5, counterexample.** Query `[1]` against a corpus holding one
healthy site with embedding `[-1]`: the cosine similarity is `-1`, the raw
scores are `[-1, 0.1, 0.1, 0.1]` with total `-0.7 ≤ 0`, so the scores are
returned unnormalized and the probabilities sum to `-0.7`, not `1.0`. -/
theorem classify_probabilities_not_normalized :
    ((classify_embedding [1] [⟨"H", [-1]⟩]).probabilities.map Prod.snd).sum = -0.7 ∧
    ((classify_embedding [1] [⟨"H", [-1]⟩]).probabilities.map Prod.snd).sum ≠ 1 := by
  have hsim : cosine_similarity [1] [-1] = -1 := by
    unfold cosine_similarity normList dotList
    rw [if_neg (by norm_num)]
    norm_num
  have hcs : ∀ code : String, code ≠ "H" →
      catSims [(1 : ℝ)] [⟨"H", [-1]⟩] code = [] := by
    intro code hc
    unfold catSims
    rw [List.filter_cons_of_neg (by simp [hc.symm]), List.filter_nil, List.map_nil]
  have hcsH : catSims [(1 : ℝ)] [⟨"H", [-1]⟩] "H" = [cosine_similarity [1] [-1]] := by
    unfold catSims
    rw [List.filter_cons_of_pos (by simp), List.filter_nil, List.map_cons, List.map_nil]
  have hscoreH : categoryScore [(1 : ℝ)] [⟨"H", [-1]⟩] "H" = -1 := by
    unfold categoryScore
    rw [hcsH, if_neg (by simp), hsim]
    norm_num
  have hscore : ∀ code : String, code ≠ "H" →
      categoryScore [(1 : ℝ)] [⟨"H", [-1]⟩] code = 0.1 := by
    intro code hc
    unfold categoryScore
    rw [hcs code hc, if_pos rfl]
  have hraw : rawProbs [(1 : ℝ)] [⟨"H", [-1]⟩] =
      [("healthy", -1), ("degraded", 0.1), ("restored_early", 0.1), ("restored_mid", 0.1)] := by
    show [("healthy", categoryScore [(1 : ℝ)] [⟨"H", [-1]⟩] "H"),
      ("degraded", categoryScore [(1 : ℝ)] [⟨"H", [-1]⟩] "D"),
      ("restored_early", categoryScore [(1 : ℝ)] [⟨"H", [-1]⟩] "R"),
      ("restored_mid", categoryScore [(1 : ℝ)] [⟨"H", [-1]⟩] "M")] = _
    rw [hscoreH, hscore "D" (by simp), hscore "R" (by simp), hscore "M" (by simp)]
  have hnp : normalizeProbs (rawProbs [(1 : ℝ)] [⟨"H", [-1]⟩]) =
      [("healthy", -1), ("degraded", 0.1), ("restored_early", 0.1), ("restored_mid", 0.1)] := by
    rw [hraw, normalizeProbs_four, if_neg (by norm_num)]
  unfold classify_embedding
  rw [if_neg (by simp), classifyNonempty_of_probs _ _ _ _ _ _ hnp]
  norm_num

/-- **C7.** For a nonempty corpus the probability list is in the fixed
priority order healthy, degraded, restored_early, restored_mid, and the
label is the first category in that order attaining the maximal score
(Python's `max` over the insertion-ordered dict replaces only on strictly
greater values); in particular four exactly equal scores give `healthy`. -/
theorem classify_tie_break (e : List ℝ) (refs : List RefSite) (h : refs ≠ []) :
    ∃ v1 v2 v3 v4 : ℝ,
      (classify_embedding e refs).probabilities =
        [("healthy", v1), ("degraded", v2), ("restored_early", v3), ("restored_mid", v4)] ∧
      (classify_embedding e refs).label =
        (if v2 ≤ v1 ∧ v3 ≤ v1 ∧ v4 ≤ v1 then "healthy"
         else if v3 ≤ v2 ∧ v4 ≤ v2 then "degraded"
         else if v4 ≤ v3 then "restored_early"
         else "restored_mid") ∧
      (v1 = v2 ∧ v2 = v3 ∧ v3 = v4 → (classify_embedding e refs).label = "healthy") := by
  have hraw : rawProbs e refs =
      [("healthy", categoryScore e refs "H"), ("degraded", categoryScore e refs "D"),
       ("restored_early", categoryScore e refs "R"), ("restored_mid", categoryScore e refs "M")] :=
    rfl
  set s1 := categoryScore e refs "H"
  set s2 := categoryScore e refs "D"
  set s3 := categoryScore e refs "R"
  set s4 := categoryScore e refs "M"
  unfold classify_embedding
  rw [if_neg h]
  by_cases hT : 0 < s1 + (s2 + (s3 + s4))
  · have hnp : normalizeProbs (rawProbs e refs) =
        [("healthy", s1 / (s1 + (s2 + (s3 + s4)))), ("degraded", s2 / (s1 + (s2 + (s3 + s4)))),
         ("restored_early", s3 / (s1 + (s2 + (s3 + s4)))),
         ("restored_mid", s4 / (s1 + (s2 + (s3 + s4))))] := by
      rw [hraw, normalizeProbs_four, if_pos hT]
    refine ⟨s1 / (s1 + (s2 + (s3 + s4))), s2 / (s1 + (s2 + (s3 + s4))),
      s3 / (s1 + (s2 + (s3 + s4))), s4 / (s1 + (s2 + (s3 + s4))), ?_⟩
    rw [classifyNonempty_of_probs e refs _ _ _ _ hnp]
    have hl := maxByFirst_four ("healthy", s1 / (s1 + (s2 + (s3 + s4))))
      ("degraded", s2 / (s1 + (s2 + (s3 + s4))))
      ("restored_early", s3 / (s1 + (s2 + (s3 + s4))))
      ("restored_mid", s4 / (s1 + (s2 + (s3 + s4))))
    refine ⟨rfl, hl, fun heq => ?_⟩
    show (maxByFirst ("healthy", s1 / (s1 + (s2 + (s3 + s4))))
      [("degraded", s2 / (s1 + (s2 + (s3 + s4)))),
       ("restored_early", s3 / (s1 + (s2 + (s3 + s4)))),
       ("restored_mid", s4 / (s1 + (s2 + (s3 + s4))))]).1 = "healthy"
    rw [hl, if_pos ⟨le_of_eq heq.1.symm, le_of_eq (heq.1.trans heq.2.1).symm,
      le_of_eq ((heq.1.trans heq.2.1).trans heq.2.2).symm⟩]
  · have hnp : normalizeProbs (rawProbs e refs) =
        [("healthy", s1), ("degraded", s2), ("restored_early", s3), ("restored_mid", s4)] := by
      rw [hraw, normalizeProbs_four, if_neg hT]
    refine ⟨s1, s2, s3, s4, ?_⟩
    rw [classifyNonempty_of_probs e refs _ _ _ _ hnp]
    have hl := maxByFirst_four ("healthy", s1) ("degraded", s2)
      ("restored_early", s3) ("restored_mid", s4)
    refine ⟨rfl, hl, fun heq => ?_⟩
    show (maxByFirst ("healthy", s1)
      [("degraded", s2), ("restored_early", s3), ("restored_mid", s4)]).1 = "healthy"
    rw [hl, if_pos ⟨le_of_eq heq.1.symm, le_of_eq (heq.1.trans heq.2.1).symm,
      le_of_eq ((heq.1.trans heq.2.1).trans heq.2.2).symm⟩]

/-- Witness for C7 at query `[1]` and a one-site corpus whose category code
`U` matches no bucket (all four scores are the equal placeholder 0.1). -/
theorem classify_tie_break_witness :
    ∃ v1 v2 v3 v4 : ℝ,
      (classify_embedding [1] [⟨"U", [1, 2]⟩]).probabilities =
        [("healthy", v1), ("degraded", v2), ("restored_early", v3), ("restored_mid", v4)] ∧
      (classify_embedding [1] [⟨"U", [1, 2]⟩]).label =
        (if v2 ≤ v1 ∧ v3 ≤ v1 ∧ v4 ≤ v1 then "healthy"
         else if v3 ≤ v2 ∧ v4 ≤ v2 then "degraded"
         else if v4 ≤ v3 then "restored_early"
         else "restored_mid") ∧
      (v1 = v2 ∧ v2 = v3 ∧ v3 = v4 →
        (classify_embedding [1] [⟨"U", [1, 2]⟩]).label = "healthy") :=
  classify_tie_break [1] [⟨"U", [1, 2]⟩] (by simp)

/-- Auxiliary for C6: the category buckets ignore dimension-mismatched
sites, so filtering them away first changes nothing. -/
theorem catSims_filter_matching (e : List ℝ) (refs : List RefSite) (code : String) :
    catSims e (refs.filter fun r => decide (r.mean_embedding.length = e.length)) code =
      catSims e refs code := by
  unfold catSims
  rw [List.filter_filter]
  congr 1
  apply List.filter_congr
  intro r _
  by_cases h1 : r.mean_embedding.length = e.length <;> simp [h1]

/-- **C6 (amended).** Classification never fails on a dimension mismatch:
reference sites whose `mean_embedding` length differs from the query's are
silently skipped, so on a nonempty corpus the result is exactly the result
computed from the dimension-matching sites alone. -/
theorem classify_skips_mismatched (e : List ℝ) (refs : List RefSite) (h : refs ≠ []) :
    classify_embedding e refs =
      classifyNonempty e (refs.filter fun r => decide (r.mean_embedding.length = e.length)) := by
  unfold classify_embedding
  rw [if_neg h]
  have hraw : rawProbs e (refs.filter fun r => decide (r.mean_embedding.length = e.length)) =
      rawProbs e refs := by
    unfold rawProbs
    apply List.map_congr_left
    intro c _
    unfold categoryScore
    rw [catSims_filter_matching]
  unfold classifyNonempty
  rw [hraw]

/-- Witness for C6's amended theorem at a concrete mismatched corpus. -/
theorem classify_skips_mismatched_witness :
    classify_embedding [1] [⟨"H", [1, 2]⟩] =
      classifyNonempty [1]
        (([⟨"H", [1, 2]⟩] : List RefSite).filter
          fun r => decide (r.mean_embedding.length = ([1] : List ℝ).length)) :=
  classify_skips_mismatched [1] [⟨"H", [1, 2]⟩] (by simp)

/-- **C6, counterexample.** Query `[1]` against a corpus whose single
(healthy) site has a 2-dimensional embedding: classification does NOT fail;
it silently ignores the mismatched site and returns the all-placeholder
result (every category scored 0.1, normalized to 0.25, label `healthy`). -/
theorem classify_mismatched_returns_result :
    classify_embedding [1] [⟨"H", [1, 2]⟩] =
      ⟨"healthy", 1 / 4, [("healthy", 1 / 4), ("degraded", 1 / 4),
        ("restored_early", 1 / 4), ("restored_mid", 1 / 4)]⟩ := by
  have hcs : ∀ code : String, catSims [(1 : ℝ)] [⟨"H", [1, 2]⟩] code = [] := by
    intro code
    unfold catSims
    rw [List.filter_cons_of_neg (by simp), List.filter_nil, List.map_nil]
  have hscore : ∀ code : String, categoryScore [(1 : ℝ)] [⟨"H", [1, 2]⟩] code = 0.1 := by
    intro code
    unfold categoryScore
    rw [hcs code, if_pos rfl]
  have hraw : rawProbs [(1 : ℝ)] [⟨"H", [1, 2]⟩] =
      [("healthy", 0.1), ("degraded", 0.1), ("restored_early", 0.1), ("restored_mid", 0.1)] := by
    show [("healthy", categoryScore [(1 : ℝ)] [⟨"H", [1, 2]⟩] "H"),
      ("degraded", categoryScore [(1 : ℝ)] [⟨"H", [1, 2]⟩] "D"),
      ("restored_early", categoryScore [(1 : ℝ)] [⟨"H", [1, 2]⟩] "R"),
      ("restored_mid", categoryScore [(1 : ℝ)] [⟨"H", [1, 2]⟩] "M")] = _
    rw [hscore "H", hscore "D", hscore "R", hscore "M"]
  have hnp := normalizeProbs_four "healthy" "degraded" "restored_early" "restored_mid"
    0.1 0.1 0.1 0.1
  rw [← hraw] at hnp
  rw [if_pos (by norm_num)] at hnp
  unfold classify_embedding
  rw [if_neg (by simp), classifyNonempty_of_probs _ _ _ _ _ _ hnp]
  have h14 : (0.1 : ℝ) / (0.1 + (0.1 + (0.1 + 0.1))) = 1 / 4 := by norm_num
  simp only [h14]
  unfold maxByFirst
  simp only [List.foldl, lt_self_iff_false, if_false]

/-- Witness for C5's amended theorem: concrete nonempty corpus (one
unmatched-category site), total `0.4 > 0`, all raw scores `0.1 ≥ 0`:
probabilities sum to 1 and the confidence is in `[0, 1]`. -/
theorem classify_probability_normalization_witness :
    (((classify_embedding [1] [⟨"U", [1, 2]⟩]).probabilities.map Prod.snd).sum = 1) ∧
    (0 ≤ (classify_embedding [1] [⟨"U", [1, 2]⟩]).confidence ∧
      (classify_embedding [1] [⟨"U", [1, 2]⟩]).confidence ≤ 1) := by
  have hcs : ∀ code : String, catSims [(1 : ℝ)] [⟨"U", [1, 2]⟩] code = [] := by
    intro code
    unfold catSims
    rw [List.filter_cons_of_neg (by simp), List.filter_nil, List.map_nil]
  have hscore : ∀ code : String, categoryScore [(1 : ℝ)] [⟨"U", [1, 2]⟩] code = 0.1 := by
    intro code
    unfold categoryScore
    rw [hcs code, if_pos rfl]
  have hraw : rawProbs [(1 : ℝ)] [⟨"U", [1, 2]⟩] =
      [("healthy", 0.1), ("degraded", 0.1), ("restored_early", 0.1), ("restored_mid", 0.1)] := by
    show [("healthy", categoryScore [(1 : ℝ)] [⟨"U", [1, 2]⟩] "H"),
      ("degraded", categoryScore [(1 : ℝ)] [⟨"U", [1, 2]⟩] "D"),
      ("restored_early", categoryScore [(1 : ℝ)] [⟨"U", [1, 2]⟩] "R"),
      ("restored_mid", categoryScore [(1 : ℝ)] [⟨"U", [1, 2]⟩] "M")] = _
    rw [hscore "H", hscore "D", hscore "R", hscore "M"]
  have h := classify_probability_normalization [1] [⟨"U", [1, 2]⟩]
  have hT : 0 < ((rawProbs [(1 : ℝ)] [⟨"U", [1, 2]⟩]).map Prod.snd).sum := by
    rw [hraw]; norm_num
  have hnn : ∀ p ∈ rawProbs [(1 : ℝ)] [⟨"U", [1, 2]⟩], 0 ≤ p.2 := by
    rw [hraw]
    intro p hp
    simp at hp
    rcases hp with h' | h' | h' | h' <;> rw [h'] <;> norm_num
  exact ⟨h.2.1 (by simp) hT, h.2.2 (by simp) hT hnn⟩

/-! ### C9: synthetic embedding generator (`generate_synthetic_embedding`)

The Python seeds NumPy's *global* generator with
`np.random.seed(int(abs(rms * 1e6) % 2**31))` and then draws
`np.random.randn(320)` four times.  The global generator state is modelled
explicitly (`RngState`), and the Mersenne-Twister normal stream is an
arbitrary but fixed function `randnStream : seed → draw index → value`:
`np.random.seed` replaces the state outright, which is exactly what makes
the result independent of the incoming state (wall clock, previous
requests, …). -/

/-- NumPy's global generator state: current seed and position in its
stream. -/
structure RngState where
  seed : ℕ
  pos : ℕ

/-- `np.random.seed(s)`: discards the previous global state. -/
def npRandomSeed (s : ℕ) (_st : RngState) : RngState := ⟨s, 0⟩

/-- `rms = float(np.sqrt(np.mean(audio_segment ** 2)))`. -/
def rmsVal (w : List ℝ) : ℝ := Real.sqrt ((w.map fun x => x * x).sum / w.length)

/-- `np.sign`. -/
def npSign (x : ℝ) : ℝ := if x < 0 then -1 else if x = 0 then 0 else 1

/-- `zero_crossings = int(np.sum(np.abs(np.diff(np.sign(audio_segment))) > 0))`. -/
def zeroCrossings (w : List ℝ) : ℕ :=
  (w.zip w.tail).countP fun p => decide (0 < |npSign p.2 - npSign p.1|)

/-- `peak = float(np.max(np.abs(audio_segment)))` (for a nonempty window;
the fold base 0 is absorbed because absolute values are nonnegative). -/
def peakVal (w : List ℝ) : ℝ := (w.map fun x => |x|).foldl max 0

/-- Magnitude of the `k`-th bin of `np.fft.rfft`. -/
def rfftMag (w : List ℝ) (k : ℕ) : ℝ :=
  Complex.abs (∑ n ∈ Finset.range w.length,
    (w.getD n 0 : ℂ) *
      Complex.exp (-2 * Real.pi * Complex.I * k * n / w.length))

/-- `spectral_centroid = float(np.sum(freqs * fft_norm))` with
`freqs = np.fft.rfftfreq(len(w), 1/32000)` (bin `k` at `k·32000/N`) and
`fft_norm = fft / (np.sum(fft) + 1e-10)`. -/
def spectralCentroid (w : List ℝ) : ℝ :=
  let bins := List.range (w.length / 2 + 1)
  let total := (bins.map (rfftMag w)).sum + 1e-10
  (bins.map fun (k : ℕ) => ((k : ℝ) * 32000 / w.length) * (rfftMag w k / total)).sum

/-- `base_features = [rms, peak, zero_crossings / len, spectral_centroid / 16000]`. -/
def baseFeatures (w : List ℝ) : List ℝ :=
  [rmsVal w, peakVal w, (zeroCrossings w : ℝ) / w.length, spectralCentroid w / 16000]

/-- `int(abs(rms * 1e6) % 2**31)` (floor of the nonnegative float mod). -/
def synthSeed (w : List ℝ) : ℕ := ⌊|rmsVal w * 1000000|⌋₊ % 2 ^ 31

/-- `generate_synthetic_embedding` (classifier lines 280–307): reseed the
global generator from the RMS, then fill four 320-entry blocks with
`feature + randn·0.1` — block `i` uses stream draws `320·i … 320·i+319`, so
entry `j` is `base_features[j / 320] + randn_draw(j) * 0.1`.  Returns the
embedding and the global generator state after the four draws. -/
def generate_synthetic_embedding (randnStream : ℕ → ℕ → ℝ) (st : RngState)
    (w : List ℝ) : List ℝ × RngState :=
  let st1 := npRandomSeed (synthSeed w) st
  (((List.range 1280).map fun j =>
      (baseFeatures w).getD (j / 320) 0 + randnStream st1.seed (st1.pos + j) * 0.1),
   ⟨st1.seed, st1.pos + 1280⟩)

/-- **C9.** The synthetic embedding is a deterministic function of the
window's content alone: for any fixed pseudo-random stream, the result does
not depend on the incoming generator state (so two evaluations — including
back-to-back evaluations threading the state — give equal vectors), only on
the seed derived from the window's RMS; and it has 1280 dimensions. -/
theorem synthetic_embedding_deterministic (randnStream : ℕ → ℕ → ℝ)
    (st st' : RngState) (w : List ℝ) (h : 0 < w.length) :
    (generate_synthetic_embedding randnStream st w).1 =
      (generate_synthetic_embedding randnStream st' w).1 ∧
    (generate_synthetic_embedding randnStream
        (generate_synthetic_embedding randnStream st w).2 w).1 =
      (generate_synthetic_embedding randnStream st w).1 ∧
    (generate_synthetic_embedding randnStream st w).1.length = 1280 := by
  refine ⟨rfl, rfl, ?_⟩
  unfold generate_synthetic_embedding
  rw [List.length_map, List.length_range]

/-- Witness for C9 at a one-sample window, two distinct incoming states and
the constant stream. -/
theorem synthetic_embedding_deterministic_witness :
    (generate_synthetic_embedding (fun _ _ => 0) ⟨0, 0⟩ [1]).1 =
      (generate_synthetic_embedding (fun _ _ => 0) ⟨7, 42⟩ [1]).1 ∧
    (generate_synthetic_embedding (fun _ _ => 0)
        (generate_synthetic_embedding (fun _ _ => 0) ⟨0, 0⟩ [1]).2 [1]).1 =
      (generate_synthetic_embedding (fun _ _ => 0) ⟨0, 0⟩ [1]).1 ∧
    (generate_synthetic_embedding (fun _ _ => 0) ⟨0, 0⟩ [1]).1.length = 1280 :=
  synthetic_embedding_deterministic (fun _ _ => 0) ⟨0, 0⟩ ⟨7, 42⟩ [1] (by norm_num)

end Classifier

end ReefRadar
